import Mathlib

/-!
Verification development for the atlas topology-synthesis program
(`glue/01-create-atlas.py`).

The program is embedded shallowly: Python dictionaries become association
lists, Python floats become exact rationals (`ℚ`), and fallible operations
(assertions, `KeyError`, `ZeroDivisionError`, `exit(1)`) return `Except`.
Python dictionary keys can be of mixed type; in particular the latency
tables are keyed by strings (IPs, country codes, the literal "global")
at some granularities and by integers (MaxMind city codes) at the
city granularity, while node attributes store the city code as a string.
Key equality in Python never identifies an `int` with a `str`, so keys are
embedded as an inductive sum `Key` of strings and integers.
-/

namespace Atlas

/-- A Python dictionary key: either a string or an integer.  Distinct
constructors are never equal, exactly like `str` vs `int` keys in Python. -/
inductive Key where
  | s (v : String)
  | i (v : Int)
deriving DecidableEq, Repr

/-- Dictionary lookup on an association list (first binding wins, as in a
Python `dict`, whose keys are unique). -/
def dget {K : Type} [DecidableEq K] {α : Type} (m : List (K × α)) (k : K) : Option α :=
  match m with
  | [] => none
  | (k1, v) :: rest => if k1 = k then some v else dget rest k

/-- Dictionary write `m[k] = v`: replaces the first binding of `k` in place,
or appends a new binding at the end (Python dicts preserve insertion order). -/
def dset {K : Type} [DecidableEq K] {α : Type} (m : List (K × α)) (k : K) (v : α) :
    List (K × α) :=
  match m with
  | [] => [(k, v)]
  | (k1, v1) :: rest => if k1 = k then (k, v) :: rest else (k1, v1) :: dset rest k v

/-- Inner level of one granularity of the latency table: `dict` from second
key to the list of latency samples. -/
abbrev Inner := List (Key × List ℚ)

/-- One granularity of the latency table: `dict` from first key to inner dict. -/
abbrev Tbl := List (Key × Inner)

/-- Access `t[a][b]` when both levels are present (`a in t and b in t[a]` plus access). -/
def tget2 (t : Tbl) (a b : Key) : Option (List ℚ) :=
  (dget t a).bind (fun inner => dget inner b)

/-- Membership `a in t` at the outer level. -/
def tmem (t : Tbl) (a : Key) : Bool :=
  (dget t a).isSome

/-- Write `t[a][b] = l`, creating the inner dict if `a` is absent
(`t.setdefault(a, {})` followed by writing key `b`). -/
def setInner (t : Tbl) (a b : Key) (l : List ℚ) : Tbl :=
  dset t a (dset ((dget t a).getD []) b l)

/-- Function `track_latency` (lines 127-138) restricted to a single granularity table:
append the sample to `t[a][b]` if that entry exists, else to `t[b][a]` if that
exists; otherwise create a fresh singleton list, under first key `a` if `a` is
already an outer key, else under first key `b` if `b` is, else under `a`. -/
def record (t : Tbl) (a b : Key) (v : ℚ) : Tbl :=
  match tget2 t a b with
  | some l => setInner t a b (l ++ [v])
  | none =>
    match tget2 t b a with
    | some l => setInner t b a (l ++ [v])
    | none =>
      if tmem t a then setInner t a b [v]
      else if tmem t b then setInner t b a [v]
      else setInner t a b [v]

/-- The `latencies` structure (lines 32-37): one table per granularity. -/
structure Latencies where
  ip2ip : Tbl
  city2city : Tbl
  country2country : Tbl
  glob : Tbl
deriving DecidableEq, Repr

/-- The four granularities of the Latency Sample Table. -/
inductive Gran where
  | ip2ip
  | city2city
  | country2country
  | glob
deriving DecidableEq, Repr

/-- Full `track_latency(latencies, latency_key, src_key, dst_key, latency)`:
dispatch on the granularity key and update that table. -/
def track_latency (L : Latencies) (g : Gran) (a b : Key) (v : ℚ) : Latencies :=
  match g with
  | .ip2ip => { L with ip2ip := record L.ip2ip a b v }
  | .city2city => { L with city2city := record L.city2city a b v }
  | .country2country => { L with country2country := record L.country2country a b v }
  | .glob => { L with glob := record L.glob a b v }

/-- Node attributes as set by `add_node` (lines 153-156).  `citycode` is
stored as `str(city)` when the city is present, and is absent otherwise;
`countrycode` is always present. -/
structure NodeAttrs where
  bandwidthdown : Int
  bandwidthup : Int
  ip : String
  citycode : Option String
  countrycode : String
  cityname : Option String
deriving DecidableEq, Repr

/-- Edge attributes as set by `add_edge` (line 124). -/
structure EdgeAttrs where
  latency : ℚ
  packetloss : ℚ
deriving DecidableEq, Repr

/-- Strict comparison of characters by code point. -/
def charLt (c1 c2 : Char) : Bool :=
  Nat.blt c1.toNat c2.toNat

/-- Lexicographic comparison of character lists (`l1 ≤ l2`). -/
def listLe : List Char → List Char → Bool
  | [], _ => true
  | _ :: _, [] => false
  | c1 :: t1, c2 :: t2 =>
    if charLt c1 c2 then true
    else if charLt c2 c1 then false
    else listLe t1 t2

/-- Lexicographic comparison of strings, a total order on node identifiers. -/
def strLe (a b : String) : Bool :=
  listLe a.data b.data

/-- Canonical key of an undirected edge: the two endpoints in nondecreasing
lexicographic order.  `networkx.Graph` identifies `(s, d)` with `(d, s)`;
sorting the pair is a canonical representation of that unordered pair. -/
def ekey (a b : String) : String × String :=
  if strLe a b then (a, b) else (b, a)

/-- The `networkx.Graph`: node dict plus one attribute record per
unordered edge. -/
structure Graph where
  nodes : List (String × NodeAttrs)
  edges : List ((String × String) × EdgeAttrs)
deriving DecidableEq, Repr

/-- Runtime faults of the program: `KeyError` (missing global bucket or
missing node), `StatisticsError` (`mean` of an empty list), the
`assert latency > 0` failure, float division by zero, and `fail_hard`
(`exit(1)` on an unknown packet-loss model). -/
inductive Err where
  | keyError
  | statisticsError
  | assertionError
  | zeroDivisionError
  | failHard
deriving DecidableEq, Repr

/-- Python `statistics.mean` on rationals (callers guard against the empty list,
on which Python raises `StatisticsError`). -/
def mean (l : List ℚ) : ℚ :=
  l.sum / (l.length : ℚ)

/-- First-match selection: the value of `x` if present, else `y`.  This is the
semantics of an `if cond_x: ... elif cond_y: ...` chain whose conditions test
exactly the presence of `x` resp. `y`. -/
def ob {α : Type} (x y : Option α) : Option α :=
  match x with
  | some v => some v
  | none => y

/-- Attach the granularity that matched to a lookup result. -/
def tag (g : Gran) (o : Option (List ℚ)) : Option (Gran × List ℚ) :=
  o.map (fun l => (g, l))

/-- Guard of line 103/105: `x in latencies['ip2ip'] and y in latencies['ip2ip'][x]`,
with the matched sample list. -/
def ip_m (L : Latencies) (x y : String) : Option (Gran × List ℚ) :=
  tag .ip2ip (tget2 L.ip2ip (.s x) (.s y))

/-- Guard of line 107/109: both nodes carry a `citycode` attribute and the
city table contains the pair of those (string) city codes.  The first node
supplies the outer key. -/
def city_m (L : Latencies) (nx ny : NodeAttrs) : Option (Gran × List ℚ) :=
  tag .city2city
    (nx.citycode.bind fun cx => ny.citycode.bind fun cy =>
      tget2 L.city2city (.s cx) (.s cy))

/-- Guard of line 111/113: the country table contains the pair of country
codes, the first node supplying the outer key. -/
def country_m (L : Latencies) (nx ny : NodeAttrs) : Option (Gran × List ℚ) :=
  tag .country2country
    (tget2 L.country2country (.s nx.countrycode) (.s ny.countrycode))

/-- Line 116: the global bucket `latencies['global']['global']['global']`. -/
def glob_m (L : Latencies) : Option (Gran × List ℚ) :=
  tag .glob (tget2 L.glob (.s "global") (.s "global"))

/-- The fallback cascade of `add_edge` (lines 103-116): IP pair in both
orderings, then city pair in both orderings (guarded by both nodes carrying a
`citycode` attribute — the code probes the city table with the *string*
city codes stored on the nodes), then country pair in both orderings, then the
global bucket.  Returns the granularity that matched and the sample list, or
`none` when even `latencies['global']['global']['global']` is missing
(a `KeyError` in Python). -/
def resolve_latency (L : Latencies) (s d : String) (ns nd : NodeAttrs) :
    Option (Gran × List ℚ) :=
  ob (ip_m L s d)
    (ob (ip_m L d s)
      (ob (city_m L ns nd)
        (ob (city_m L nd ns)
          (ob (country_m L ns nd)
            (ob (country_m L nd ns)
              (glob_m L))))))

/-- The body of `add_edge` after node lookup and latency resolution
(lines 118-124): take the mean of the matched sample list (Python raises
`StatisticsError` on an empty list), `assert latency > 0`, clamp to
`max_latency`, compute `packetloss = latency/max_latency*max_ploss` (a
`ZeroDivisionError` when `max_latency` is zero — the division happens whatever
the packet-loss factor), and store the edge under the unordered pair (s, d).
The source's local variable `latency` (reassigned by the clamp) is inlined:
the clamped value is written out as an `if` expression. -/
def add_edge_resolved (G : Graph) (s d : String) (max_latency max_ploss : ℚ)
    (r : Option (Gran × List ℚ)) : Except Err Graph :=
  match r with
  | none => .error .keyError
  | some (_, latency_list) =>
    if latency_list = [] then .error .statisticsError
    else if mean latency_list ≤ 0 then .error .assertionError
    else if max_latency = 0 then .error .zeroDivisionError
    else
      .ok { G with edges := (dset G.edges (ekey s d)
        ⟨if max_latency < mean latency_list then max_latency else mean latency_list,
         (if max_latency < mean latency_list then max_latency else mean latency_list)
           / max_latency * max_ploss⟩) }

/-- Full `add_edge(G, latencies, s, d, max_latency, max_ploss)` (lines 102-124):
look up the two nodes' attributes (the loop always passes existing nodes),
resolve the sample list through the fallback cascade, and synthesize the
edge. -/
def add_edge (G : Graph) (L : Latencies) (s d : String) (max_latency max_ploss : ℚ) :
    Except Err Graph :=
  match dget G.nodes s, dget G.nodes d with
  | some ns, some nd =>
    add_edge_resolved G s d max_latency max_ploss (resolve_latency L s d ns nd)
  | _, _ => .error .keyError

/-- Per-city or per-country bandwidth record of the speed profile. -/
structure Bw where
  up_mbits : ℚ
  down_mbits : ℚ
deriving DecidableEq, Repr

/-- The speed profile: city and country bandwidth maps plus the two global
averages (the averages are computed by an external loader, out of scope). -/
structure Speed where
  cities : List (Int × Bw)
  countries : List (String × Bw)
  global_up_mbit : ℚ
  global_down_mbit : ℚ
deriving DecidableEq, Repr

/-- Python `int()` applied to a nonintegral value in Python: truncation toward zero. -/
def pyint (q : ℚ) : Int :=
  if q < 0 then ⌈q⌉ else ⌊q⌋

/-- Conversion `mbit_to_kib(bw) = int(float(bw) * 122.07)` (lines 160-161). -/
def mbit_to_kib (bw : ℚ) : Int :=
  pyint (bw * (12207 / 100))

/-- The bandwidth resolution cascade of `add_node` (lines 142-151): city
preferred (if a city code is present and found), then country, then the
precomputed global average. -/
def add_node_bw (speed : Speed) (city : Option Int) (country : String) : Int × Int :=
  match city.bind (fun c => dget speed.cities c) with
  | some b => (mbit_to_kib b.up_mbits, mbit_to_kib b.down_mbits)
  | none =>
    match dget speed.countries country with
    | some b => (mbit_to_kib b.up_mbits, mbit_to_kib b.down_mbits)
    | none => (mbit_to_kib speed.global_up_mbit, mbit_to_kib speed.global_down_mbit)

/-- Full `add_node(G, speed, ip, city, country, city_name)` (lines 141-157):
resolve bandwidth (city, then country, then global average) and store the
node; the `citycode` attribute is `str(city)` and `cityname` is set only
when a city code is present. -/
def add_node (G : Graph) (speed : Speed) (ip : String) (city : Option Int)
    (country : String) (city_name : String) : Graph :=
  let bw := add_node_bw speed city country
  match city with
  | some c =>
    let na : NodeAttrs :=
      { bandwidthdown := bw.2, bandwidthup := bw.1, ip := ip,
        citycode := some (toString c), countrycode := country,
        cityname := some city_name }
    { G with nodes := dset G.nodes ip na }
  | none =>
    let na : NodeAttrs :=
      { bandwidthdown := bw.2, bandwidthup := bw.1, ip := ip,
        citycode := none, countrycode := country, cityname := none }
    { G with nodes := dset G.nodes ip na }

/-- One probe record of the latency CSV (lines 46-55).  The city fields are
parsed with `int(...)` and so are always present integers. -/
structure Row where
  src : String
  src_country : String
  dst : String
  dst_country : String
  src_city : Int
  dst_city : Int
  src_city_name : String
  dst_city_name : String
  latency : ℚ
deriving DecidableEq, Repr

/-- Processing of one probe row (lines 46-72): add the two endpoints as nodes
if new, then track the latency at all four granularities.  The guard
`src_city is not None and dst_city is not None` on the city tracking is
always true, because both fields were produced by `int(...)`; the city table
is keyed by the *integer* city codes. -/
def ingest_row (speed : Speed) (st : Graph × Latencies) (row : Row) :
    Graph × Latencies :=
  let G0 := st.1
  let L0 := st.2
  let G1 := if (dget G0.nodes row.src).isSome then G0
    else add_node G0 speed row.src (some row.src_city) row.src_country row.src_city_name
  let G2 := if (dget G1.nodes row.dst).isSome then G1
    else add_node G1 speed row.dst (some row.dst_city) row.dst_country row.dst_city_name
  let L1 := track_latency L0 .ip2ip (.s row.src) (.s row.dst) row.latency
  let L2 := track_latency L1 .city2city (.i row.src_city) (.i row.dst_city) row.latency
  let L3 := track_latency L2 .country2country (.s row.src_country) (.s row.dst_country) row.latency
  let L4 := track_latency L3 .glob (.s "global") (.s "global") row.latency
  (G2, L4)

/-- The ingestion phase: fold all probe rows over the empty graph and empty
latency tables. -/
def ingest (speed : Speed) (rows : List Row) : Graph × Latencies :=
  rows.foldl (ingest_row speed) (⟨[], []⟩, ⟨[], [], [], []⟩)

/-- The node identifiers of the graph, in insertion order (`for s in G`). -/
def node_ids (G : Graph) : List String :=
  G.nodes.map Prod.fst

/-- One iteration of the densification loop body (lines 81-91): select
`max_packetloss` from the packet-loss model (`0` for `zero`, the configured
maximum for `linear-latency`, `fail_hard` otherwise) and call `add_edge`. -/
def densify_step (L : Latencies) (model : String) (max_latency max_packetloss : ℚ)
    (G : Graph) (s d : String) : Except Err Graph :=
  if model = "zero" then add_edge G L s d max_latency 0
  else if model = "linear-latency" then add_edge G L s d max_latency max_packetloss
  else .error .failHard

/-- The inner loop `for d in G` for a fixed `s`. -/
def densify_inner (L : Latencies) (model : String) (max_latency max_packetloss : ℚ)
    (s : String) (ds : List String) (G : Graph) : Except Err Graph :=
  ds.foldlM (fun g d => densify_step L model max_latency max_packetloss g s d) G

/-- The densification double loop (lines 79-96) over the node set of `G0`.
The node set is not altered by `add_edge`, so both loops range over the
node list of the initial graph. -/
def densify (G0 : Graph) (L : Latencies) (model : String)
    (max_latency max_packetloss : ℚ) : Except Err Graph :=
  (node_ids G0).foldlM
    (fun g s => densify_inner L model max_latency max_packetloss s (node_ids G0) g) G0

/-- The whole pipeline `main` after input loading: ingestion followed by
densification. -/
def main (speed : Speed) (rows : List Row) (packetloss_model : String)
    (max_latency max_packetloss : ℚ) : Except Err Graph :=
  let st := ingest speed rows
  densify st.1 st.2 packetloss_model max_latency max_packetloss

/-- The Latency Sample Table invariant (spec §3): a pair is stored under at
most one of its two orderings, never split across two entries. -/
def noSplit (t : Tbl) : Prop :=
  ∀ a b : Key, a ≠ b → (tget2 t a b).isSome → tget2 t b a = none

/-- The `lookup` of spec §4.1: try `(a, b)` then `(b, a)` before reporting
absence. -/
def lookup (t : Tbl) (a b : Key) : Option (List ℚ) :=
  ob (tget2 t a b) (tget2 t b a)

/-- Modelled from the words of claim C3 (not from the source): `record`
appends to the existing entry for `(keyB, keyA)` if one exists, and otherwise
appends to `(keyA, keyB)`, creating that entry if absent.  Compared against
`record` above, which is translated from `track_latency` in the source. -/
def record_claim (t : Tbl) (a b : Key) (v : ℚ) : Tbl :=
  match tget2 t b a with
  | some l => setInner t b a (l ++ [v])
  | none => setInner t a b ((tget2 t a b).getD [] ++ [v])

/-- A speed profile with no city and no country entries: every node falls
back to the global average bandwidth (irrelevant to latency resolution). -/
def sp0 : Speed := ⟨[], [], 5, 5⟩

/-- Probe: a→b, cities 1 and 2, countries X and Y, latency 10 ms. -/
def bug_r1 : Row := ⟨"a", "X", "b", "Y", 1, 2, "c1", "c2", 10⟩

/-- Probe: c→d, cities 3 and 4, countries X and Y, latency 100 ms. -/
def bug_r2 : Row := ⟨"c", "X", "d", "Y", 3, 4, "c3", "c4", 100⟩

/-- Probe: e→f, cities 1 and 2, countries X and Y, latency 50 ms. -/
def bug_r3 : Row := ⟨"e", "X", "f", "Y", 1, 2, "c1", "c2", 50⟩

/-- The three probes exercising the city granularity. -/
def bug_rows : List Row := [bug_r1, bug_r2, bug_r3]

/-- Graph after ingesting the three probes: six nodes. -/
def bugG : Graph := (ingest sp0 bug_rows).1

/-- Latency Sample Table after ingesting the three probes. -/
def bugL : Latencies := (ingest sp0 bug_rows).2

/-- A node without a city code, in country X. -/
def na_w : NodeAttrs := ⟨610, 610, "a", none, "X", none⟩

/-- A node without a city code, in country Y. -/
def nb_w : NodeAttrs := ⟨610, 610, "b", none, "Y", none⟩

/-- A two-node graph with no edges, as handed to densification. -/
def Gw : Graph := ⟨[("a", na_w), ("b", nb_w)], []⟩

/-- A one-node graph with no edges. -/
def Gw1 : Graph := ⟨[("a", na_w)], []⟩

/-- A table with one IP-pair sample (a, b) of 10 ms and a global bucket of 7 ms. -/
def Lw : Latencies :=
  ⟨record [] (.s "a") (.s "b") 10, [], [], record [] (.s "global") (.s "global") 7⟩

/-- A table holding only the global bucket with a single 10 ms sample. -/
def Lglob : Latencies :=
  ⟨[], [], [], record [] (.s "global") (.s "global") 10⟩

/-- A table holding only the global bucket with a single 500 ms sample,
above the default 300 ms latency clamp. -/
def Lbig : Latencies :=
  ⟨[], [], [], record [] (.s "global") (.s "global") 500⟩

/-- The graph densified from `Gw` and `Lw` under the zero model: self-loops
from the 7 ms global bucket, the (a, b) edge from the 10 ms IP-pair sample. -/
def Gw_dense : Graph :=
  ⟨Gw.nodes, [(("a", "a"), ⟨7, 0⟩), (("a", "b"), ⟨10, 0⟩), (("b", "b"), ⟨7, 0⟩)]⟩

/-- Graph `Gw` after one densification step for (a, b). -/
def Gw_ab : Graph := ⟨Gw.nodes, [(("a", "b"), ⟨10, 0⟩)]⟩

/-- A speed profile with city 1 at 5/7 Mbit/s and country X at 3/4 Mbit/s. -/
def spc : Speed := ⟨[(1, ⟨5, 7⟩)], [("X", ⟨3, 4⟩)], 9, 11⟩

/-- The node synthesized from `spc` for city 1 in country X:
bandwidth 5 and 7 Mbit/s converted to 610 and 854 KiB/s. -/
def na_c : NodeAttrs := ⟨854, 610, "a", some "1", "X", some "cn"⟩

end Atlas

namespace Atlas

lemma dget_nil {K : Type} [DecidableEq K] {α : Type} (k : K) :
    dget ([] : List (K × α)) k = none := rfl

lemma dget_cons {K : Type} [DecidableEq K] {α : Type} (k1 k : K) (v1 : α) (tl : List (K × α)) :
    dget ((k1, v1) :: tl) k = if k1 = k then some v1 else dget tl k := rfl

lemma dset_nil {K : Type} [DecidableEq K] {α : Type} (k : K) (v : α) :
    dset ([] : List (K × α)) k v = [(k, v)] := rfl

lemma dset_cons {K : Type} [DecidableEq K] {α : Type} (k1 k : K) (v1 v : α) (tl : List (K × α)) :
    dset ((k1, v1) :: tl) k v =
      if k1 = k then (k, v) :: tl else (k1, v1) :: dset tl k v := rfl

lemma dget_dset_self {K : Type} [DecidableEq K] {α : Type} (m : List (K × α)) (k : K) (v : α) :
    dget (dset m k v) k = some v := by
  induction m with
  | nil => simp [dset_nil, dget_cons]
  | cons hd tl ih =>
    obtain ⟨k1, v1⟩ := hd
    rw [dset_cons]
    by_cases h : k1 = k
    · rw [if_pos h, dget_cons, if_pos rfl]
    · rw [if_neg h, dget_cons, if_neg h, ih]

lemma dget_dset_ne {K : Type} [DecidableEq K] {α : Type} (m : List (K × α)) (k q : K) (v : α)
    (h : q ≠ k) : dget (dset m k v) q = dget m q := by
  induction m with
  | nil => rw [dset_nil, dget_cons, if_neg (Ne.symm h), dget_nil]
  | cons hd tl ih =>
    obtain ⟨k1, v1⟩ := hd
    rw [dset_cons]
    by_cases h1 : k1 = k
    · subst h1
      rw [if_pos rfl, dget_cons, dget_cons, if_neg (Ne.symm h), if_neg (Ne.symm h)]
    · rw [if_neg h1, dget_cons, dget_cons]
      by_cases h2 : k1 = q
      · rw [if_pos h2, if_pos h2]
      · rw [if_neg h2, if_neg h2, ih]

lemma mem_keys_dset {K : Type} [DecidableEq K] {α : Type} (m : List (K × α)) (k q : K) (v : α) :
    q ∈ (dset m k v).map Prod.fst ↔ q ∈ m.map Prod.fst ∨ q = k := by
  induction m with
  | nil => simp [dset_nil]
  | cons hd tl ih =>
    obtain ⟨k1, v1⟩ := hd
    rw [dset_cons]
    by_cases h1 : k1 = k
    · subst h1
      rw [if_pos rfl]
      simp only [List.map_cons, List.mem_cons]
      tauto
    · rw [if_neg h1]
      simp only [List.map_cons, List.mem_cons, ih]
      tauto

lemma keys_dset_nodup {K : Type} [DecidableEq K] {α : Type} (m : List (K × α)) (k : K) (v : α)
    (h : (m.map Prod.fst).Nodup) : ((dset m k v).map Prod.fst).Nodup := by
  induction m with
  | nil => simp [dset_nil]
  | cons hd tl ih =>
    obtain ⟨k1, v1⟩ := hd
    simp only [List.map_cons, List.nodup_cons] at h
    rw [dset_cons]
    by_cases h1 : k1 = k
    · subst h1
      rw [if_pos rfl]
      simp only [List.map_cons, List.nodup_cons]
      exact h
    · rw [if_neg h1]
      simp only [List.map_cons, List.nodup_cons]
      refine ⟨?_, ih h.2⟩
      intro hmem
      rw [mem_keys_dset] at hmem
      rcases hmem with hmem | hmem
      · exact h.1 hmem
      · exact h1 hmem

lemma tget2_setInner (t : Tbl) (x y c d : Key) (l : List ℚ) :
    tget2 (setInner t x y l) c d = if c = x ∧ d = y then some l else tget2 t c d := by
  unfold setInner tget2
  by_cases hc : c = x
  · subst hc
    rw [dget_dset_self]
    simp only [Option.some_bind]
    by_cases hd : d = y
    · subst hd
      rw [dget_dset_self, if_pos ⟨trivial, rfl⟩]
    · rw [dget_dset_ne _ _ _ _ hd, if_neg (fun hh => hd hh.2)]
      cases hxi : dget t c with
      | none => rfl
      | some inner => rfl
  · rw [dget_dset_ne _ _ _ _ hc, if_neg (fun hh => hc hh.1)]

lemma noSplit_nil : noSplit [] := by
  intro a b _ hsome
  simp [tget2, dget_nil] at hsome

lemma noSplit_setInner (t : Tbl) (x y : Key) (l : List ℚ)
    (h : noSplit t) (hop : x = y ∨ tget2 t y x = none) :
    noSplit (setInner t x y l) := by
  intro c d hcd hsome
  rw [tget2_setInner] at hsome ⊢
  by_cases h1 : c = x ∧ d = y
  · obtain ⟨hc, hd⟩ := h1
    have hne : ¬(d = x ∧ c = y) := by
      rintro ⟨h2, -⟩
      exact hcd (hc.trans h2.symm)
    rw [if_neg hne]
    rcases hop with hop | hop
    · exact absurd ((hc.trans hop).trans hd.symm) hcd
    · rw [← hc, ← hd] at hop
      exact hop
  · rw [if_neg h1] at hsome
    by_cases h2 : d = x ∧ c = y
    · exfalso
      obtain ⟨hd, hc⟩ := h2
      rcases hop with hop | hop
      · exact hcd (hc.trans (hop.symm.trans hd.symm))
      · rw [← hc, ← hd] at hop
        rw [hop] at hsome
        simp at hsome
    · rw [if_neg h2]
      exact h c d hcd hsome

end Atlas

namespace Atlas

lemma record_of_ab (t : Tbl) (a b : Key) (v : ℚ) (l : List ℚ) (h : tget2 t a b = some l) :
    record t a b v = setInner t a b (l ++ [v]) := by
  unfold record
  rw [h]

lemma record_of_ba (t : Tbl) (a b : Key) (v : ℚ) (l : List ℚ)
    (hab : tget2 t a b = none) (hba : tget2 t b a = some l) :
    record t a b v = setInner t b a (l ++ [v]) := by
  unfold record
  rw [hab, hba]

lemma record_of_new_a (t : Tbl) (a b : Key) (v : ℚ)
    (hab : tget2 t a b = none) (hba : tget2 t b a = none) (hta : tmem t a = true) :
    record t a b v = setInner t a b [v] := by
  unfold record
  rw [hab, hba]
  simp [hta]

lemma record_of_new_b (t : Tbl) (a b : Key) (v : ℚ)
    (hab : tget2 t a b = none) (hba : tget2 t b a = none)
    (hta : tmem t a = false) (htb : tmem t b = true) :
    record t a b v = setInner t b a [v] := by
  unfold record
  rw [hab, hba]
  simp [hta, htb]

lemma record_of_new_none (t : Tbl) (a b : Key) (v : ℚ)
    (hab : tget2 t a b = none) (hba : tget2 t b a = none)
    (hta : tmem t a = false) (htb : tmem t b = false) :
    record t a b v = setInner t a b [v] := by
  unfold record
  rw [hab, hba]
  simp [hta, htb]

lemma noSplit_record (t : Tbl) (a b : Key) (v : ℚ) (h : noSplit t) :
    noSplit (record t a b v) := by
  cases hab : tget2 t a b with
  | some l =>
    rw [record_of_ab t a b v l hab]
    apply noSplit_setInner t a b _ h
    by_cases he : a = b
    · exact Or.inl he
    · exact Or.inr (h a b he (by rw [hab]; rfl))
  | none =>
    cases hba : tget2 t b a with
    | some l =>
      rw [record_of_ba t a b v l hab hba]
      exact noSplit_setInner t b a _ h (Or.inr hab)
    | none =>
      cases hta : tmem t a with
      | true =>
        rw [record_of_new_a t a b v hab hba hta]
        exact noSplit_setInner t a b _ h (Or.inr hba)
      | false =>
        cases htb : tmem t b with
        | true =>
          rw [record_of_new_b t a b v hab hba hta htb]
          exact noSplit_setInner t b a _ h (Or.inr hab)
        | false =>
          rw [record_of_new_none t a b v hab hba hta htb]
          exact noSplit_setInner t a b _ h (Or.inr hba)

lemma noSplit_foldl (ops : List (Key × Key × ℚ)) (t : Tbl) (h : noSplit t) :
    noSplit (ops.foldl (fun acc o => record acc o.1 o.2.1 o.2.2) t) := by
  induction ops generalizing t with
  | nil => exact h
  | cons o rest ih => exact ih _ (noSplit_record _ _ _ _ h)

lemma lookup_record (t : Tbl) (a b : Key) (v : ℚ) :
    lookup (record t a b v) a b = some ((lookup t a b).getD [] ++ [v]) := by
  cases hab : tget2 t a b with
  | some l =>
    rw [record_of_ab t a b v l hab]
    unfold lookup
    rw [tget2_setInner, if_pos ⟨rfl, rfl⟩, hab]
    rfl
  | none =>
    cases hba : tget2 t b a with
    | some l =>
      rw [record_of_ba t a b v l hab hba]
      unfold lookup
      by_cases he : a = b
      · rw [he] at hab
        rw [he] at hba
        rw [hab] at hba
        exact absurd hba (by simp)
      · rw [tget2_setInner, if_neg (fun hh => he hh.1), hab]
        rw [tget2_setInner, if_pos ⟨rfl, rfl⟩, hba]
        rfl
    | none =>
      have hfin : ∀ u : Tbl, tget2 u a b = some [v] ∨ (tget2 u a b = none ∧ tget2 u b a = some [v]) →
          lookup u a b = some ((lookup t a b).getD [] ++ [v]) := by
        intro u hu
        unfold lookup
        rcases hu with hu | ⟨hu1, hu2⟩
        · rw [hu, hab, hba]
          rfl
        · rw [hu1, hu2, hab, hba]
          rfl
      cases hta : tmem t a with
      | true =>
        rw [record_of_new_a t a b v hab hba hta]
        apply hfin
        left
        rw [tget2_setInner, if_pos ⟨rfl, rfl⟩]
      | false =>
        cases htb : tmem t b with
        | true =>
          rw [record_of_new_b t a b v hab hba hta htb]
          apply hfin
          by_cases he : a = b
          · left
            rw [tget2_setInner, if_pos ⟨he, he.symm⟩]
          · right
            constructor
            · rw [tget2_setInner, if_neg (fun hh => he hh.1)]
              exact hab
            · rw [tget2_setInner, if_pos ⟨rfl, rfl⟩]
        | false =>
          rw [record_of_new_none t a b v hab hba hta htb]
          apply hfin
          left
          rw [tget2_setInner, if_pos ⟨rfl, rfl⟩]

end Atlas

namespace Atlas

lemma ob_swap {α : Type} (x y r : Option α)
    (h : x.isSome = true → y.isSome = true → x = y) :
    ob x (ob y r) = ob y (ob x r) := by
  cases x with
  | none => cases y <;> rfl
  | some a =>
    cases y with
    | none => rfl
    | some b =>
      have hab := h rfl rfl
      simp only [ob]
      exact hab

lemma tag_isSome (g : Gran) (o : Option (List ℚ)) : (tag g o).isSome = o.isSome := by
  cases o <;> rfl

lemma tag_noSplit_swap (t : Tbl) (h : noSplit t) (a b : Key) (g : Gran)
    (h1 : (tag g (tget2 t a b)).isSome = true) (h2 : (tag g (tget2 t b a)).isSome = true) :
    tag g (tget2 t a b) = tag g (tget2 t b a) := by
  by_cases he : a = b
  · rw [he]
  · exfalso
    rw [tag_isSome] at h1 h2
    rw [h a b he h1] at h2
    simp at h2

lemma ip_m_swap (L : Latencies) (hip : noSplit L.ip2ip) (s d : String)
    (h1 : (ip_m L s d).isSome = true) (h2 : (ip_m L d s).isSome = true) :
    ip_m L s d = ip_m L d s :=
  tag_noSplit_swap L.ip2ip hip (.s s) (.s d) .ip2ip h1 h2

lemma city_pair_swap_aux (t : Tbl) (h : noSplit t) (oc od : Option String)
    (h1 : (tag .city2city (oc.bind fun cx => od.bind fun cy => tget2 t (.s cx) (.s cy))).isSome = true)
    (h2 : (tag .city2city (od.bind fun cx => oc.bind fun cy => tget2 t (.s cx) (.s cy))).isSome = true) :
    tag .city2city (oc.bind fun cx => od.bind fun cy => tget2 t (.s cx) (.s cy)) =
      tag .city2city (od.bind fun cx => oc.bind fun cy => tget2 t (.s cx) (.s cy)) := by
  cases oc with
  | none => simp [tag] at h1
  | some cx =>
    cases od with
    | none => simp [tag] at h1
    | some cy =>
      simp only [Option.some_bind] at h1 h2 ⊢
      exact tag_noSplit_swap t h (.s cx) (.s cy) .city2city h1 h2

lemma city_m_swap (L : Latencies) (hct : noSplit L.city2city) (nx ny : NodeAttrs)
    (h1 : (city_m L nx ny).isSome = true) (h2 : (city_m L ny nx).isSome = true) :
    city_m L nx ny = city_m L ny nx := by
  unfold city_m at h1 h2 ⊢
  exact city_pair_swap_aux L.city2city hct nx.citycode ny.citycode h1 h2

lemma country_m_swap (L : Latencies) (hco : noSplit L.country2country) (nx ny : NodeAttrs)
    (h1 : (country_m L nx ny).isSome = true) (h2 : (country_m L ny nx).isSome = true) :
    country_m L nx ny = country_m L ny nx :=
  tag_noSplit_swap L.country2country hco (.s nx.countrycode) (.s ny.countrycode)
    .country2country h1 h2

lemma resolve_symm (L : Latencies) (hip : noSplit L.ip2ip) (hct : noSplit L.city2city)
    (hco : noSplit L.country2country) (s d : String) (ns nd : NodeAttrs) :
    resolve_latency L s d ns nd = resolve_latency L d s nd ns := by
  unfold resolve_latency
  rw [ob_swap (country_m L ns nd) (country_m L nd ns) (glob_m L) (country_m_swap L hco ns nd)]
  rw [ob_swap (city_m L ns nd) (city_m L nd ns) _ (city_m_swap L hct ns nd)]
  rw [ob_swap (ip_m L s d) (ip_m L d s) _ (ip_m_swap L hip s d)]

lemma charLt_iff (c1 c2 : Char) : charLt c1 c2 = true ↔ c1.toNat < c2.toNat := by
  unfold charLt
  rw [Nat.blt_eq]

lemma charLt_ff_eq (c1 c2 : Char) (h1 : charLt c1 c2 = false) (h2 : charLt c2 c1 = false) :
    c1 = c2 := by
  have n1 : ¬c1.toNat < c2.toNat := by
    intro hlt
    rw [(charLt_iff c1 c2).mpr hlt] at h1
    simp at h1
  have n2 : ¬c2.toNat < c1.toNat := by
    intro hlt
    rw [(charLt_iff c2 c1).mpr hlt] at h2
    simp at h2
  have heq : c1.toNat = c2.toNat :=
    Nat.le_antisymm (Nat.le_of_not_lt n2) (Nat.le_of_not_lt n1)
  exact Char.ext (UInt32.ext heq)

lemma listLe_total (l1 l2 : List Char) : listLe l1 l2 = true ∨ listLe l2 l1 = true := by
  induction l1 generalizing l2 with
  | nil => exact Or.inl rfl
  | cons c1 t1 ih =>
    cases l2 with
    | nil => exact Or.inr rfl
    | cons c2 t2 =>
      cases hc1 : charLt c1 c2 with
      | true => exact Or.inl (by simp [listLe, hc1])
      | false =>
        cases hc2 : charLt c2 c1 with
        | true => exact Or.inr (by simp [listLe, hc2])
        | false =>
          rcases ih t2 with h | h
          · exact Or.inl (by simp [listLe, hc1, hc2, h])
          · exact Or.inr (by simp [listLe, hc1, hc2, h])

lemma listLe_antisymm (l1 l2 : List Char) (h1 : listLe l1 l2 = true)
    (h2 : listLe l2 l1 = true) : l1 = l2 := by
  induction l1 generalizing l2 with
  | nil =>
    cases l2 with
    | nil => rfl
    | cons c2 t2 => simp [listLe] at h2
  | cons c1 t1 ih =>
    cases l2 with
    | nil => simp [listLe] at h1
    | cons c2 t2 =>
      cases hc1 : charLt c1 c2 with
      | true =>
        have hc2 : charLt c2 c1 = false := by
          cases hcc : charLt c2 c1 with
          | false => rfl
          | true =>
            have a1 := (charLt_iff c1 c2).mp hc1
            have a2 := (charLt_iff c2 c1).mp hcc
            omega
        simp [listLe, hc1, hc2] at h2
      | false =>
        cases hc2 : charLt c2 c1 with
        | true => simp [listLe, hc1, hc2] at h1
        | false =>
          have hc := charLt_ff_eq c1 c2 hc1 hc2
          have ht := ih t2 (by simpa [listLe, hc1, hc2] using h1)
            (by simpa [listLe, hc1, hc2] using h2)
          rw [hc, ht]

lemma strLe_total (a b : String) : strLe a b = true ∨ strLe b a = true :=
  listLe_total a.data b.data

lemma strLe_antisymm (a b : String) (h1 : strLe a b = true) (h2 : strLe b a = true) :
    a = b :=
  congrArg String.mk (listLe_antisymm a.data b.data h1 h2)

lemma ekey_comm (a b : String) : ekey a b = ekey b a := by
  unfold ekey
  cases h1 : strLe a b with
  | true =>
    cases h2 : strLe b a with
    | true =>
      have he := strLe_antisymm a b h1 h2
      subst he
      rfl
    | false => rfl
  | false =>
    cases h2 : strLe b a with
    | true => rfl
    | false =>
      rcases strLe_total a b with h | h
      · rw [h] at h1
        simp at h1
      · rw [h] at h2
        simp at h2

lemma add_edge_resolved_comm (G : Graph) (s d : String) (ml mp : ℚ)
    (r : Option (Gran × List ℚ)) :
    add_edge_resolved G s d ml mp r = add_edge_resolved G d s ml mp r := by
  cases r with
  | none => rfl
  | some p =>
    obtain ⟨g, ll⟩ := p
    simp only [add_edge_resolved]
    rw [ekey_comm s d]

lemma add_edge_symm (G : Graph) (L : Latencies) (hip : noSplit L.ip2ip)
    (hct : noSplit L.city2city) (hco : noSplit L.country2country)
    (s d : String) (max_latency max_ploss : ℚ) :
    add_edge G L s d max_latency max_ploss = add_edge G L d s max_latency max_ploss := by
  unfold add_edge
  cases hs : dget G.nodes s with
  | none => cases hd : dget G.nodes d <;> rfl
  | some ns =>
    cases hd : dget G.nodes d with
    | none => rfl
    | some nd =>
      dsimp only
      rw [resolve_symm L hip hct hco s d ns nd]
      exact add_edge_resolved_comm G s d max_latency max_ploss _

end Atlas

namespace Atlas

lemma add_edge_eq_resolved (G : Graph) (L : Latencies) (s d : String) (ml mp : ℚ)
    (ns nd : NodeAttrs) (hs : dget G.nodes s = some ns) (hd : dget G.nodes d = some nd) :
    add_edge G L s d ml mp = add_edge_resolved G s d ml mp (resolve_latency L s d ns nd) := by
  unfold add_edge
  rw [hs, hd]

lemma add_edge_ok (G : Graph) (L : Latencies) (s d : String) (ml mp : ℚ) (G2 : Graph)
    (h : add_edge G L s d ml mp = .ok G2) :
    ∃ ns nd g ll, dget G.nodes s = some ns ∧ dget G.nodes d = some nd ∧
      resolve_latency L s d ns nd = some (g, ll) ∧ ll ≠ [] ∧ 0 < mean ll ∧ ml ≠ 0 ∧
      G2 = { G with edges := (dset G.edges (ekey s d)
              ⟨if ml < mean ll then ml else mean ll,
               (if ml < mean ll then ml else mean ll) / ml * mp⟩) } := by
  unfold add_edge at h
  split at h
  · rename_i ns nd hs hd
    cases hres : resolve_latency L s d ns nd with
    | none =>
      rw [hres] at h
      simp [add_edge_resolved] at h
    | some p =>
      obtain ⟨g, ll⟩ := p
      rw [hres] at h
      simp only [add_edge_resolved] at h
      split at h
      · simp at h
      · split at h
        · simp at h
        · split at h
          · simp at h
          · rename_i hne hpos hml
            refine ⟨ns, nd, g, ll, hs, hd, hres, hne, not_le.mp hpos, hml, ?_⟩
            cases h
            rfl
  · simp at h

lemma add_edge_shape (G : Graph) (L : Latencies) (s d : String) (ml mp : ℚ) (G2 : Graph)
    (h : add_edge G L s d ml mp = .ok G2) :
    G2.nodes = G.nodes ∧ ∃ e, G2.edges = dset G.edges (ekey s d) e := by
  obtain ⟨ns, nd, g, ll, -, -, -, -, -, -, hG⟩ := add_edge_ok G L s d ml mp G2 h
  subst hG
  exact ⟨rfl, ⟨_, rfl⟩⟩

lemma densify_step_ok (L : Latencies) (model : String) (ml mp : ℚ) (G : Graph) (s d : String)
    (G2 : Graph) (h : densify_step L model ml mp G s d = .ok G2) :
    ∃ mp2, add_edge G L s d ml mp2 = .ok G2 := by
  unfold densify_step at h
  split at h
  · exact ⟨0, h⟩
  · split at h
    · exact ⟨mp, h⟩
    · simp at h

lemma clamp_pos (ml x : ℚ) (hml : 0 < ml) (hx : 0 < x) :
    0 < if ml < x then ml else x := by
  split
  · exact hml
  · exact hx

lemma clamp_le (ml x : ℚ) : (if ml < x then ml else x) ≤ ml := by
  by_cases h : ml < x
  · rw [if_pos h]
  · rw [if_neg h]
    exact le_of_not_lt h

end Atlas

namespace Atlas

lemma except_bind_ok {ε α β : Type} (a : α) (f : α → Except ε β) :
    ((Except.ok a : Except ε α) >>= f) = f a := rfl

lemma except_bind_error {ε α β : Type} (e : ε) (f : α → Except ε β) :
    ((Except.error e : Except ε α) >>= f) = Except.error e := rfl

lemma except_pure_bind {ε α β : Type} (a : α) (f : α → Except ε β) :
    ((pure a : Except ε α) >>= f) = f a := rfl

lemma densify_step_shape (L : Latencies) (model : String) (ml mp : ℚ) (G : Graph)
    (s d : String) (G2 : Graph) (h : densify_step L model ml mp G s d = .ok G2) :
    G2.nodes = G.nodes ∧ ∃ e, G2.edges = dset G.edges (ekey s d) e := by
  obtain ⟨mp2, h2⟩ := densify_step_ok L model ml mp G s d G2 h
  exact add_edge_shape G L s d ml mp2 G2 h2

lemma inner_ok (L : Latencies) (model : String) (ml mp : ℚ) (s : String) (ds : List String)
    (G G2 : Graph) (h : densify_inner L model ml mp s ds G = .ok G2) :
    G2.nodes = G.nodes ∧
    (∀ k, k ∈ G2.edges.map Prod.fst ↔
      k ∈ G.edges.map Prod.fst ∨ ∃ d ∈ ds, k = ekey s d) ∧
    ((G.edges.map Prod.fst).Nodup → (G2.edges.map Prod.fst).Nodup) := by
  induction ds generalizing G with
  | nil =>
    unfold densify_inner at h
    rw [List.foldlM_nil] at h
    cases h
    simp
  | cons d ds ih =>
    unfold densify_inner at h
    rw [List.foldlM_cons] at h
    cases hstep : densify_step L model ml mp G s d with
    | error e =>
      rw [hstep, except_bind_error] at h
      exact absurd h (by simp)
    | ok G1 =>
      rw [hstep, except_bind_ok] at h
      obtain ⟨hnodes, hmem, hnd⟩ := ih G1 h
      obtain ⟨hn1, e, he1⟩ := densify_step_shape L model ml mp G s d G1 hstep
      refine ⟨hnodes.trans hn1, ?_, ?_⟩
      · intro k
        rw [hmem k, he1]
        rw [mem_keys_dset]
        simp only [List.mem_cons]
        constructor
        · rintro ((hk | hk) | ⟨y, hy, hke⟩)
          · exact Or.inl hk
          · exact Or.inr ⟨d, Or.inl rfl, hk⟩
          · exact Or.inr ⟨y, Or.inr hy, hke⟩
        · rintro (hk | ⟨y, (rfl | hy), hke⟩)
          · exact Or.inl (Or.inl hk)
          · exact Or.inl (Or.inr hke)
          · exact Or.inr ⟨y, hy, hke⟩
      · intro hnod
        apply hnd
        rw [he1]
        exact keys_dset_nodup _ _ _ hnod

lemma outer_ok (L : Latencies) (model : String) (ml mp : ℚ) (ids os : List String)
    (G G2 : Graph)
    (h : os.foldlM (fun g x => densify_inner L model ml mp x ids g) G = .ok G2) :
    G2.nodes = G.nodes ∧
    (∀ k, k ∈ G2.edges.map Prod.fst ↔
      k ∈ G.edges.map Prod.fst ∨ ∃ x ∈ os, ∃ y ∈ ids, k = ekey x y) ∧
    ((G.edges.map Prod.fst).Nodup → (G2.edges.map Prod.fst).Nodup) := by
  induction os generalizing G with
  | nil =>
    rw [List.foldlM_nil] at h
    cases h
    simp
  | cons x os ih =>
    rw [List.foldlM_cons] at h
    cases hstep : densify_inner L model ml mp x ids G with
    | error e =>
      rw [hstep, except_bind_error] at h
      exact absurd h (by simp)
    | ok G1 =>
      rw [hstep, except_bind_ok] at h
      obtain ⟨hn, hm, hd⟩ := ih G1 h
      obtain ⟨hn1, hm1, hd1⟩ := inner_ok L model ml mp x ids G G1 hstep
      refine ⟨hn.trans hn1, ?_, fun hh => hd (hd1 hh)⟩
      intro k
      constructor
      · intro hk
        rcases (hm k).1 hk with hk1 | ⟨a, ha, b, hb, hke⟩
        · rcases (hm1 k).1 hk1 with h0 | ⟨y, hy, hke⟩
          · exact Or.inl h0
          · exact Or.inr ⟨x, List.mem_cons_self x os, y, hy, hke⟩
        · exact Or.inr ⟨a, List.mem_cons_of_mem x ha, b, hb, hke⟩
      · intro hk
        apply (hm k).2
        rcases hk with h0 | ⟨a, ha, b, hb, hke⟩
        · exact Or.inl ((hm1 k).2 (Or.inl h0))
        · rcases List.mem_cons.mp ha with rfl | ha2
          · exact Or.inl ((hm1 k).2 (Or.inr ⟨b, hb, hke⟩))
          · exact Or.inr ⟨a, ha2, b, hb, hke⟩

end Atlas

namespace Atlas

lemma ekey_sorted (a b : String) : strLe (ekey a b).1 (ekey a b).2 = true := by
  unfold ekey
  cases h1 : strLe a b with
  | true => simpa using h1
  | false =>
    rcases strLe_total a b with h | h
    · rw [h] at h1
      simp at h1
    · simpa using h

lemma sym2_mk_ekey (a b : String) : Sym2.mk (ekey a b) = Sym2.mk (a, b) := by
  unfold ekey
  cases h1 : strLe a b with
  | true => rfl
  | false =>
    show Sym2.mk (b, a) = Sym2.mk (a, b)
    exact Sym2.eq_swap

lemma sorted_pairs_inj (p q : String × String) (hp : strLe p.1 p.2 = true)
    (hq : strLe q.1 q.2 = true) (h : Sym2.mk p = Sym2.mk q) : p = q := by
  obtain ⟨a, b⟩ := p
  obtain ⟨c, e⟩ := q
  simp only at hp hq
  rcases Sym2.eq_iff.mp h with ⟨h1, h2⟩ | ⟨h1, h2⟩
  · rw [h1, h2]
  · subst h1
    subst h2
    have hab := strLe_antisymm _ _ hp hq
    rw [hab]

lemma card_ekey_image (S : Finset String) :
    ((S ×ˢ S).image (fun p : String × String => ekey p.1 p.2)).card
      = S.card * (S.card + 1) / 2 := by
  have hinj : Set.InjOn Sym2.mk
      (((S ×ˢ S).image (fun p : String × String => ekey p.1 p.2) :
        Finset (String × String)) : Set (String × String)) := by
    intro p hp q hq hpq
    simp only [Finset.coe_image, Set.mem_image, Finset.mem_coe] at hp hq
    obtain ⟨⟨a, b⟩, -, rfl⟩ := hp
    obtain ⟨⟨c, e⟩, -, rfl⟩ := hq
    exact sorted_pairs_inj _ _ (ekey_sorted a b) (ekey_sorted c e) hpq
  have himg : (((S ×ˢ S).image (fun p : String × String => ekey p.1 p.2)).image Sym2.mk)
      = S.sym2 := by
    rw [Finset.image_image, Finset.sym2_eq_image]
    apply Finset.image_congr
    intro p _
    show Sym2.mk (ekey p.1 p.2) = Sym2.mk p
    rw [sym2_mk_ekey]
  have hcard := Finset.card_image_of_injOn hinj
  rw [himg, Finset.card_sym2, Nat.choose_two_right, Nat.add_sub_cancel,
    Nat.mul_comm] at hcard
  exact hcard.symm

lemma densify_count (G0 : Graph) (L : Latencies) (model : String) (ml mp : ℚ) (G2 : Graph)
    (hnd : (node_ids G0).Nodup) (he : G0.edges = [])
    (hok : densify G0 L model ml mp = .ok G2) :
    G2.edges.length = G0.nodes.length * (G0.nodes.length + 1) / 2 ∧
      (G2.edges.map Prod.fst).Nodup := by
  unfold densify at hok
  obtain ⟨hn, hm, hdnp⟩ := outer_ok L model ml mp (node_ids G0) (node_ids G0) G0 G2 hok
  have hnodup2 : (G2.edges.map Prod.fst).Nodup := by
    apply hdnp
    rw [he]
    simp
  refine ⟨?_, hnodup2⟩
  have hlen : G2.edges.length = (G2.edges.map Prod.fst).toFinset.card := by
    rw [List.toFinset_card_of_nodup hnodup2, List.length_map]
  rw [hlen]
  have hset : (G2.edges.map Prod.fst).toFinset
      = ((node_ids G0).toFinset ×ˢ (node_ids G0).toFinset).image
          (fun p : String × String => ekey p.1 p.2) := by
    ext k
    simp only [List.mem_toFinset, Finset.mem_image, Finset.mem_product]
    rw [hm k, he]
    simp only [List.map_nil, List.not_mem_nil, false_or]
    constructor
    · rintro ⟨x, hx, y, hy, rfl⟩
      exact ⟨(x, y), ⟨hx, hy⟩, rfl⟩
    · rintro ⟨⟨x, y⟩, ⟨hx, hy⟩, rfl⟩
      exact ⟨x, hx, y, hy, rfl⟩
  rw [hset, card_ekey_image, List.toFinset_card_of_nodup hnd]
  unfold node_ids
  rw [List.length_map]

lemma add_edge_rewrite_same (L : Latencies) (hip : noSplit L.ip2ip)
    (hct : noSplit L.city2city) (hco : noSplit L.country2country)
    (G H : Graph) (hnodes : H.nodes = G.nodes) (s d : String) (ml mp : ℚ) (G2 H2 : Graph)
    (h1 : add_edge G L s d ml mp = .ok G2) (h2 : add_edge H L d s ml mp = .ok H2) :
    ∃ e, dget G2.edges (ekey s d) = some e ∧ dget H2.edges (ekey s d) = some e ∧
      G2.nodes = G.nodes ∧ H2.nodes = G.nodes := by
  rw [add_edge_symm G L hip hct hco s d ml mp] at h1
  obtain ⟨ns, nd, g, ll, hs, hd, hres, hne, hpos, hml, hG2⟩ := add_edge_ok G L d s ml mp G2 h1
  obtain ⟨ns2, nd2, g2, ll2, hs2, hd2, hres2, hne2, hpos2, hml2, hH2⟩ :=
    add_edge_ok H L d s ml mp H2 h2
  rw [hnodes] at hs2 hd2
  rw [hs] at hs2
  rw [hd] at hd2
  cases hs2
  cases hd2
  rw [hres] at hres2
  cases hres2
  subst hG2
  subst hH2
  refine ⟨⟨if ml < mean ll then ml else mean ll,
    (if ml < mean ll then ml else mean ll) / ml * mp⟩, ?_, ?_, rfl, hnodes⟩
  · dsimp only
    rw [ekey_comm s d, dget_dset_self]
  · dsimp only
    rw [ekey_comm s d, dget_dset_self]

end Atlas

namespace Atlas

/-- C2: for a fixed Latency Sample Table satisfying its never-split storage
invariant, synthesizing an edge for (s, d) and for (d, s) resolves the same
granularity and the same sample list, hence the same latency value:
`resolve_latency` is symmetric in the pair and `add_edge` returns identical
results for the two orderings. -/
theorem C2_fallback_determinism (L : Latencies) (hip : noSplit L.ip2ip)
    (hct : noSplit L.city2city) (hco : noSplit L.country2country)
    (G : Graph) (s d : String) (ns nd : NodeAttrs) (ml mp : ℚ) :
    resolve_latency L s d ns nd = resolve_latency L d s nd ns ∧
    add_edge G L s d ml mp = add_edge G L d s ml mp :=
  ⟨resolve_symm L hip hct hco s d ns nd, add_edge_symm G L hip hct hco s d ml mp⟩

theorem C2_fallback_determinism_witness :
    resolve_latency Lw "a" "b" na_w nb_w = resolve_latency Lw "b" "a" nb_w na_w ∧
    add_edge Gw Lw "a" "b" 300 0 = add_edge Gw Lw "b" "a" 300 0 :=
  C2_fallback_determinism Lw
    (noSplit_record [] (.s "a") (.s "b") 10 noSplit_nil)
    noSplit_nil noSplit_nil Gw "a" "b" na_w nb_w 300 0

/-- C3 counterexample: record (B, C) and then (A, B) into an empty granularity
table.  When record(A, B) runs, no entry for (B, A) exists, so the claim as
stated places the sample under a new entry (A, B); the code instead places it
under (B, A), because B is already a first-level key and A is not.  The two
resulting tables differ. -/
theorem C3_counterexample :
    tget2 (record (record [] (.s "B") (.s "C") 1) (.s "A") (.s "B") 2)
        (.s "A") (.s "B") = none ∧
    tget2 (record (record [] (.s "B") (.s "C") 1) (.s "A") (.s "B") 2)
        (.s "B") (.s "A") = some [2] ∧
    tget2 (record_claim (record [] (.s "B") (.s "C") 1) (.s "A") (.s "B") 2)
        (.s "A") (.s "B") = some [2] ∧
    record (record [] (.s "B") (.s "C") 1) (.s "A") (.s "B") 2 ≠
      record_claim (record [] (.s "B") (.s "C") 1) (.s "A") (.s "B") 2 := by
  refine ⟨by rfl, by rfl, by rfl, by decide⟩

/-- C3 (amended): record(g, keyA, keyB, v) appends to the entry (keyA, keyB)
if it exists, else to (keyB, keyA) if that exists; otherwise it creates a
fresh singleton entry, under (keyB, keyA) exactly when keyB is already a
first-level key and keyA is not, and under (keyA, keyB) otherwise.  In every
case the unordered pair's sample list, read through the two-ordering lookup,
is extended by the new sample, and after any sequence of records starting
from the empty table each unordered pair is stored under exactly one of its
two orderings — never split across two entries. -/
theorem C3_record_append_never_split (ops : List (Key × Key × ℚ)) (t : Tbl)
    (a b : Key) (v : ℚ) :
    noSplit (ops.foldl (fun acc o => record acc o.1 o.2.1 o.2.2) []) ∧
    lookup (record t a b v) a b = some ((lookup t a b).getD [] ++ [v]) :=
  ⟨noSplit_foldl ops [] noSplit_nil, lookup_record t a b v⟩

/-- C9: an unrecognized packet-loss model name is fatal: the model check runs
inside every loop iteration before `add_edge`, so each step reports fail_hard
and the densification over a nonempty node set terminates with the fail_hard
error, synthesizing no edge at all — in particular none for the offending
pair nor for any later pair. -/
theorem C9_unknown_model_fatal (model : String) (h1 : model ≠ "zero")
    (h2 : model ≠ "linear-latency") :
    (∀ L ml mp (G : Graph) s d, densify_step L model ml mp G s d = .error .failHard) ∧
    (∀ (G0 : Graph) L ml mp, G0.nodes ≠ [] →
      densify G0 L model ml mp = .error .failHard) := by
  have hstep : ∀ L ml mp (G : Graph) s d,
      densify_step L model ml mp G s d = .error .failHard := by
    intro L ml mp G s d
    unfold densify_step
    rw [if_neg h1, if_neg h2]
  refine ⟨hstep, ?_⟩
  intro G0 L ml mp hne
  unfold densify
  cases hids : node_ids G0 with
  | nil =>
    exfalso
    apply hne
    unfold node_ids at hids
    exact List.map_eq_nil_iff.mp hids
  | cons x xs =>
    rw [List.foldlM_cons]
    have hinner : densify_inner L model ml mp x (x :: xs) G0 = .error .failHard := by
      unfold densify_inner
      rw [List.foldlM_cons, hstep L ml mp G0 x x, except_bind_error]
    rw [hinner, except_bind_error]

theorem C9_unknown_model_fatal_witness :
    ("bogus" ≠ "zero" ∧ "bogus" ≠ "linear-latency") ∧
    densify_step Lw "bogus" 300 0 Gw "a" "b" = .error .failHard ∧
    densify Gw Lw "bogus" 300 0 = .error .failHard := by
  refine ⟨⟨by decide, by decide⟩, ?_, ?_⟩
  · exact (C9_unknown_model_fatal "bogus" (by decide) (by decide)).1 Lw 300 0 Gw "a" "b"
  · exact (C9_unknown_model_fatal "bogus" (by decide) (by decide)).2 Gw Lw 300 0 (by decide)

end Atlas

namespace Atlas

lemma add_edge_eval (G : Graph) (L : Latencies) (s d : String) (ml mp : ℚ)
    (ns nd : NodeAttrs) (g : Gran) (ll : List ℚ)
    (hs : dget G.nodes s = some ns) (hd : dget G.nodes d = some nd)
    (hres : resolve_latency L s d ns nd = some (g, ll))
    (hne : ll ≠ []) (hpos : 0 < mean ll) :
    add_edge G L s d ml mp =
      if ml = 0 then .error .zeroDivisionError
      else .ok { G with edges := (dset G.edges (ekey s d)
        ⟨if ml < mean ll then ml else mean ll,
         (if ml < mean ll then ml else mean ll) / ml * mp⟩) } := by
  rw [add_edge_eq_resolved G L s d ml mp ns nd hs hd, hres]
  simp only [add_edge_resolved]
  rw [if_neg hne, if_neg (not_le.mpr hpos)]

lemma add_edge_concrete (G : Graph) (L : Latencies) (s d : String) (ml mp : ℚ)
    (ns nd : NodeAttrs) (g : Gran) (ll : List ℚ) (lat pl : ℚ)
    (hs : dget G.nodes s = some ns) (hd : dget G.nodes d = some nd)
    (hres : resolve_latency L s d ns nd = some (g, ll))
    (hne : ll ≠ []) (hpos : 0 < mean ll) (hml : ml ≠ 0)
    (hlat : (if ml < mean ll then ml else mean ll) = lat)
    (hpl : lat / ml * mp = pl) :
    add_edge G L s d ml mp =
      .ok { G with edges := (dset G.edges (ekey s d) ⟨lat, pl⟩) } := by
  rw [add_edge_eval G L s d ml mp ns nd g ll hs hd hres hne hpos, if_neg hml, hlat, hpl]

/-- C4 counterexample: with the pathological configuration maxLatency = -1 the
synthesizer still produces an edge (from a single 10 ms global sample), and
the stored latency is the clamp value -1, which is not strictly positive —
the claimed bound 0 < latency fails for this produced edge. -/
theorem C4_counterexample :
    add_edge Gw1 Lglob "a" "a" (-1) 0 =
      .ok ⟨[("a", na_w)], [(("a", "a"), ⟨-1, 0⟩)]⟩ ∧
    ¬(0 < (-1 : ℚ)) := by
  constructor
  · have h := add_edge_concrete Gw1 Lglob "a" "a" (-1) 0 na_w na_w .glob [10] (-1) 0
      (by decide) (by decide) (by decide) (by decide) (by norm_num [mean])
      (by norm_num) (by norm_num [mean]) (by norm_num)
    rw [h]
    rfl
  · norm_num

/-- C4 (amended): provided the configured maximum latency is positive, every
edge the Edge Synthesizer produces has 0 < latency ≤ maxLatency; the stored
latency is exactly the resolved mean when that mean does not exceed
maxLatency and exactly maxLatency when it does; and a resolved mean ≤ 0 is
the fatal assertion error, not a recoverable condition. -/
theorem C4_latency_clamped (ml : ℚ) (hml : 0 < ml) :
    (∀ G L s d mp G2 e, add_edge G L s d ml mp = .ok G2 →
      dget G2.edges (ekey s d) = some e → 0 < e.latency ∧ e.latency ≤ ml) ∧
    (∀ G L s d mp G2 e ns nd g ll, add_edge G L s d ml mp = .ok G2 →
      dget G2.edges (ekey s d) = some e →
      dget G.nodes s = some ns → dget G.nodes d = some nd →
      resolve_latency L s d ns nd = some (g, ll) →
      (ml < mean ll → e.latency = ml) ∧ (mean ll ≤ ml → e.latency = mean ll)) ∧
    (∀ G L s d mp ns nd g ll, dget G.nodes s = some ns → dget G.nodes d = some nd →
      resolve_latency L s d ns nd = some (g, ll) → ll ≠ [] → mean ll ≤ 0 →
      add_edge G L s d ml mp = .error .assertionError) := by
  refine ⟨?_, ?_, ?_⟩
  · intro G L s d mp G2 e hok he
    obtain ⟨ns, nd, g, ll, hs, hd, hres, hne, hpos, hml0, hG2⟩ :=
      add_edge_ok G L s d ml mp G2 hok
    subst hG2
    dsimp only at he
    rw [dget_dset_self] at he
    cases he
    exact ⟨clamp_pos ml (mean ll) hml hpos, clamp_le ml (mean ll)⟩
  · intro G L s d mp G2 e ns nd g ll hok he hs hd hres
    obtain ⟨ns0, nd0, g0, ll0, hs0, hd0, hres0, hne0, hpos0, hml0, hG2⟩ :=
      add_edge_ok G L s d ml mp G2 hok
    rw [hs] at hs0
    rw [hd] at hd0
    cases hs0
    cases hd0
    rw [hres] at hres0
    cases hres0
    subst hG2
    dsimp only at he
    rw [dget_dset_self] at he
    cases he
    constructor
    · intro hlt
      show (if ml < mean ll then ml else mean ll) = ml
      rw [if_pos hlt]
    · intro hle
      show (if ml < mean ll then ml else mean ll) = mean ll
      rw [if_neg (not_lt.mpr hle)]
  · intro G L s d mp ns nd g ll hs hd hres hne hneg
    rw [add_edge_eq_resolved G L s d ml mp ns nd hs hd, hres]
    simp only [add_edge_resolved]
    rw [if_neg hne, if_pos hneg]

theorem C4_latency_clamped_witness :
    0 < (300 : ℚ) ∧
    add_edge Gw1 Lglob "a" "a" 300 0 =
      .ok ⟨[("a", na_w)], [(("a", "a"), ⟨10, 0⟩)]⟩ ∧
    (0 < (10 : ℚ) ∧ (10 : ℚ) ≤ 300) ∧
    add_edge Gw1 Lbig "a" "a" 300 0 =
      .ok ⟨[("a", na_w)], [(("a", "a"), ⟨300, 0⟩)]⟩ ∧
    (300 : ℚ) < mean [500] ∧
    (⟨300, 0⟩ : EdgeAttrs).latency = 300 := by
  have h : add_edge Gw1 Lglob "a" "a" 300 0 =
      .ok ⟨[("a", na_w)], [(("a", "a"), ⟨10, 0⟩)]⟩ := by
    have h2 := add_edge_concrete Gw1 Lglob "a" "a" 300 0 na_w na_w .glob [10] 10 0
      (by decide) (by decide) (by decide) (by decide) (by norm_num [mean])
      (by norm_num) (by norm_num [mean]) (by norm_num)
    rw [h2]
    rfl
  have hbig : add_edge Gw1 Lbig "a" "a" 300 0 =
      .ok ⟨[("a", na_w)], [(("a", "a"), ⟨300, 0⟩)]⟩ := by
    have h2 := add_edge_concrete Gw1 Lbig "a" "a" 300 0 na_w na_w .glob [500] 300 0
      (by decide) (by decide) (by decide) (by decide) (by norm_num [mean])
      (by norm_num) (by norm_num [mean]) (by norm_num)
    rw [h2]
    rfl
  refine ⟨by norm_num, h, ?_, hbig, by norm_num [mean], ?_⟩
  · exact (C4_latency_clamped 300 (by norm_num)).1 Gw1 Lglob "a" "a" 0
      ⟨[("a", na_w)], [(("a", "a"), ⟨10, 0⟩)]⟩ ⟨10, 0⟩ h (by decide)
  · exact ((C4_latency_clamped 300 (by norm_num)).2.1 Gw1 Lbig "a" "a" 0
      ⟨[("a", na_w)], [(("a", "a"), ⟨300, 0⟩)]⟩ ⟨300, 0⟩ na_w na_w .glob [500]
      hbig (by decide) (by decide) (by decide) (by decide)).1
      (by norm_num [mean])

/-- C10: edge synthesis computes `packetloss = latency/max_latency*max_ploss`
in every configuration — under the zero model just as under linear-latency —
so it divides by maxLatency unconditionally: with maxLatency = 0 the step
faults with the division-by-zero error even though the factor max_ploss is 0,
while any positive maxLatency lets the same step produce an edge.  The
precondition maxLatency ≠ 0 appears nowhere in the spec's configuration
surface. -/
theorem C10_division_by_max_latency (L : Latencies) (G : Graph) (s d : String) (mp : ℚ)
    (ns nd : NodeAttrs) (g : Gran) (ll : List ℚ) (model : String)
    (hmodel : model = "zero" ∨ model = "linear-latency")
    (hs : dget G.nodes s = some ns) (hd : dget G.nodes d = some nd)
    (hres : resolve_latency L s d ns nd = some (g, ll))
    (hne : ll ≠ []) (hpos : 0 < mean ll) :
    densify_step L model 0 mp G s d = .error .zeroDivisionError ∧
    (∀ ml : ℚ, 0 < ml → ∃ G2, densify_step L model ml mp G s d = .ok G2) := by
  have hstep : ∀ ml mp2, add_edge G L s d ml mp2 =
      if ml = 0 then .error .zeroDivisionError
      else .ok { G with edges := (dset G.edges (ekey s d)
        ⟨if ml < mean ll then ml else mean ll,
         (if ml < mean ll then ml else mean ll) / ml * mp2⟩) } :=
    fun ml mp2 => add_edge_eval G L s d ml mp2 ns nd g ll hs hd hres hne hpos
  have hmodelstep : ∀ ml, densify_step L model ml mp G s d =
      add_edge G L s d ml (if model = "zero" then 0 else mp) := by
    intro ml
    unfold densify_step
    rcases hmodel with hm | hm
    · rw [if_pos hm, if_pos hm]
    · have hz : model ≠ "zero" := by
        rw [hm]
        decide
      rw [if_neg hz, if_pos hm, if_neg hz]
  constructor
  · rw [hmodelstep 0, hstep 0, if_pos rfl]
  · intro ml hml
    exact ⟨_, by rw [hmodelstep ml, hstep ml, if_neg (ne_of_gt hml)]⟩

theorem C10_division_by_max_latency_witness :
    (("zero" = "zero" ∨ "zero" = "linear-latency") ∧
      dget Gw1.nodes "a" = some na_w ∧
      resolve_latency Lglob "a" "a" na_w na_w = some (.glob, [10]) ∧
      ([10] : List ℚ) ≠ [] ∧ 0 < mean [10]) ∧
    densify_step Lglob "zero" 0 (3 / 200) Gw1 "a" "a" = .error .zeroDivisionError ∧
    (∃ G2, densify_step Lglob "zero" 300 (3 / 200) Gw1 "a" "a" = .ok G2) := by
  refine ⟨⟨Or.inl rfl, by decide, by decide, by decide, by norm_num [mean]⟩, ?_, ?_⟩
  · exact (C10_division_by_max_latency Lglob Gw1 "a" "a" (3 / 200) na_w na_w .glob [10]
      "zero" (Or.inl rfl) (by decide) (by decide) (by decide) (by decide)
      (by norm_num [mean])).1
  · exact (C10_division_by_max_latency Lglob Gw1 "a" "a" (3 / 200) na_w na_w .glob [10]
      "zero" (Or.inl rfl) (by decide) (by decide) (by decide) (by decide)
      (by norm_num [mean])).2 300 (by norm_num)

end Atlas

namespace Atlas

/-- C5: under the `zero` packet-loss model every synthesized edge stores
packet loss exactly 0, regardless of its latency; under `linear-latency` the
stored packet loss equals exactly clampedLatency / maxLatency · maxPacketLoss
and, the configured maximum being a nonnegative fraction, lies in
[0, maxPacketLoss]. -/
theorem C5_packet_loss_models (ml mp : ℚ) (hmp : 0 ≤ mp) :
    (∀ L G s d G2 e, densify_step L "zero" ml mp G s d = .ok G2 →
      dget G2.edges (ekey s d) = some e → e.packetloss = 0) ∧
    (∀ L G s d G2 e, densify_step L "linear-latency" ml mp G s d = .ok G2 →
      dget G2.edges (ekey s d) = some e →
      e.packetloss = e.latency / ml * mp ∧ 0 ≤ e.packetloss ∧ e.packetloss ≤ mp) := by
  constructor
  · intro L G s d G2 e hok he
    have hok2 : add_edge G L s d ml 0 = .ok G2 := by
      unfold densify_step at hok
      rwa [if_pos rfl] at hok
    obtain ⟨ns, nd, g, ll, hs, hd, hres, hne, hpos, hml0, hG2⟩ :=
      add_edge_ok G L s d ml 0 G2 hok2
    subst hG2
    dsimp only at he
    rw [dget_dset_self] at he
    cases he
    exact mul_zero _
  · intro L G s d G2 e hok he
    have hok2 : add_edge G L s d ml mp = .ok G2 := by
      unfold densify_step at hok
      rw [if_neg (by decide : ¬("linear-latency" : String) = "zero"), if_pos rfl] at hok
      exact hok
    obtain ⟨ns, nd, g, ll, hs, hd, hres, hne, hpos, hml0, hG2⟩ :=
      add_edge_ok G L s d ml mp G2 hok2
    subst hG2
    dsimp only at he
    rw [dget_dset_self] at he
    cases he
    refine ⟨rfl, ?_⟩
    rcases lt_or_gt_of_ne hml0 with hneg | hposml
    · have hcl : (if ml < mean ll then ml else mean ll) = ml :=
        if_pos (lt_trans hneg hpos)
      show 0 ≤ (if ml < mean ll then ml else mean ll) / ml * mp ∧
        (if ml < mean ll then ml else mean ll) / ml * mp ≤ mp
      rw [hcl, div_self hml0, one_mul]
      exact ⟨hmp, le_refl mp⟩
    · have h1 : 0 < (if ml < mean ll then ml else mean ll) :=
        clamp_pos ml (mean ll) hposml hpos
      have h2 : (if ml < mean ll then ml else mean ll) / ml ≤ 1 :=
        (div_le_one hposml).mpr (clamp_le ml (mean ll))
      have h3 : 0 < (if ml < mean ll then ml else mean ll) / ml := div_pos h1 hposml
      show 0 ≤ (if ml < mean ll then ml else mean ll) / ml * mp ∧
        (if ml < mean ll then ml else mean ll) / ml * mp ≤ mp
      exact ⟨mul_nonneg (le_of_lt h3) hmp, mul_le_of_le_one_left hmp h2⟩

theorem C5_packet_loss_models_witness :
    (0 : ℚ) ≤ 30 ∧
    densify_step Lw "linear-latency" 300 30 Gw "a" "b" =
      .ok ⟨Gw.nodes, [(("a", "b"), ⟨10, 1⟩)]⟩ ∧
    ((⟨10, 1⟩ : EdgeAttrs).packetloss = (⟨10, 1⟩ : EdgeAttrs).latency / 300 * 30 ∧
      0 ≤ (⟨10, 1⟩ : EdgeAttrs).packetloss ∧ (⟨10, 1⟩ : EdgeAttrs).packetloss ≤ 30) := by
  have hstep : densify_step Lw "linear-latency" 300 30 Gw "a" "b" =
      .ok ⟨Gw.nodes, [(("a", "b"), ⟨10, 1⟩)]⟩ := by
    unfold densify_step
    rw [if_neg (by decide : ¬("linear-latency" : String) = "zero"), if_pos rfl]
    have h3 := add_edge_concrete Gw Lw "a" "b" 300 30 na_w nb_w .ip2ip [10] 10 1
      (by decide) (by decide) (by decide) (by decide) (by norm_num [mean])
      (by norm_num) (by norm_num [mean]) (by norm_num)
    rw [h3]
    rfl
  refine ⟨by norm_num, hstep, ?_⟩
  exact (C5_packet_loss_models 300 30 (by norm_num)).2 Lw Gw "a" "b"
    ⟨Gw.nodes, [(("a", "b"), ⟨10, 1⟩)]⟩ ⟨10, 1⟩ hstep (by decide)

/-- C6: after the densification loop completes over a node set of n distinct
nodes starting from an edgeless graph, the graph contains exactly
n (n + 1) / 2 distinct edges: one per unordered pair of distinct nodes (the
(s, d) and (d, s) loop iterations hit the same edge) plus one self-loop per
node. -/
theorem C6_densification_count (G0 : Graph) (L : Latencies) (model : String)
    (ml mp : ℚ) (G2 : Graph) (hnd : (node_ids G0).Nodup) (he : G0.edges = [])
    (hok : densify G0 L model ml mp = .ok G2) :
    G2.edges.length = G0.nodes.length * (G0.nodes.length + 1) / 2 ∧
      (G2.edges.map Prod.fst).Nodup :=
  densify_count G0 L model ml mp G2 hnd he hok

theorem C6_densification_count_witness :
    (node_ids Gw).Nodup ∧ Gw.edges = [] ∧
    densify Gw Lw "zero" 300 0 = .ok Gw_dense ∧
    (Gw_dense.edges.length = Gw.nodes.length * (Gw.nodes.length + 1) / 2 ∧
      (Gw_dense.edges.map Prod.fst).Nodup) := by
  have e1 : densify_step Lw "zero" 300 0 Gw "a" "a" =
      .ok ⟨Gw.nodes, [(("a", "a"), ⟨7, 0⟩)]⟩ := by
    unfold densify_step
    rw [if_pos rfl]
    have h := add_edge_concrete Gw Lw "a" "a" 300 0 na_w na_w .glob [7] 7 0
      (by decide) (by decide) (by decide) (by decide) (by norm_num [mean])
      (by norm_num) (by norm_num [mean]) (by norm_num)
    rw [h]
    rfl
  have e2 : densify_step Lw "zero" 300 0 ⟨Gw.nodes, [(("a", "a"), ⟨7, 0⟩)]⟩ "a" "b" =
      .ok ⟨Gw.nodes, [(("a", "a"), ⟨7, 0⟩), (("a", "b"), ⟨10, 0⟩)]⟩ := by
    unfold densify_step
    rw [if_pos rfl]
    have h := add_edge_concrete ⟨Gw.nodes, [(("a", "a"), ⟨7, 0⟩)]⟩ Lw "a" "b" 300 0
      na_w nb_w .ip2ip [10] 10 0
      (by decide) (by decide) (by decide) (by decide) (by norm_num [mean])
      (by norm_num) (by norm_num [mean]) (by norm_num)
    rw [h]
    rfl
  have e3 : densify_step Lw "zero" 300 0
      ⟨Gw.nodes, [(("a", "a"), ⟨7, 0⟩), (("a", "b"), ⟨10, 0⟩)]⟩ "b" "a" =
      .ok ⟨Gw.nodes, [(("a", "a"), ⟨7, 0⟩), (("a", "b"), ⟨10, 0⟩)]⟩ := by
    unfold densify_step
    rw [if_pos rfl]
    have h := add_edge_concrete ⟨Gw.nodes, [(("a", "a"), ⟨7, 0⟩), (("a", "b"), ⟨10, 0⟩)]⟩
      Lw "b" "a" 300 0 nb_w na_w .ip2ip [10] 10 0
      (by decide) (by decide) (by decide) (by decide) (by norm_num [mean])
      (by norm_num) (by norm_num [mean]) (by norm_num)
    rw [h]
    rfl
  have e4 : densify_step Lw "zero" 300 0
      ⟨Gw.nodes, [(("a", "a"), ⟨7, 0⟩), (("a", "b"), ⟨10, 0⟩)]⟩ "b" "b" =
      .ok Gw_dense := by
    unfold densify_step
    rw [if_pos rfl]
    have h := add_edge_concrete ⟨Gw.nodes, [(("a", "a"), ⟨7, 0⟩), (("a", "b"), ⟨10, 0⟩)]⟩
      Lw "b" "b" 300 0 nb_w nb_w .glob [7] 7 0
      (by decide) (by decide) (by decide) (by decide) (by norm_num [mean])
      (by norm_num) (by norm_num [mean]) (by norm_num)
    rw [h]
    rfl
  have hids : node_ids Gw = ["a", "b"] := by decide
  have hd : densify Gw Lw "zero" 300 0 = .ok Gw_dense := by
    unfold densify densify_inner
    rw [hids]
    simp only [List.foldlM_cons, List.foldlM_nil, e1, e2, e3, e4, except_bind_ok,
      except_pure_bind]
    rfl
  refine ⟨by decide, rfl, hd, ?_⟩
  exact C6_densification_count Gw Lw "zero" 300 0 Gw_dense (by decide) rfl hd

/-- C7: during densification every edge entity is created once and its
attributes are never changed afterwards: the graph's node map is untouched by
edge synthesis, and re-synthesizing the same unordered pair later in the loop
(from any graph state with the same node map, the Latency Sample Table being
frozen and never split) writes the identical attribute record at the same
edge key, so the attributes stored at creation persist unchanged. -/
theorem C7_edges_write_once (L : Latencies) (model : String) (ml mp : ℚ)
    (hip : noSplit L.ip2ip) (hct : noSplit L.city2city) (hco : noSplit L.country2country)
    (G H : Graph) (hnodes : H.nodes = G.nodes) (s d : String) (G2 H2 : Graph)
    (h1 : densify_step L model ml mp G s d = .ok G2)
    (h2 : densify_step L model ml mp H d s = .ok H2) :
    ∃ e, dget G2.edges (ekey s d) = some e ∧ dget H2.edges (ekey s d) = some e ∧
      G2.nodes = G.nodes ∧ H2.nodes = G.nodes := by
  unfold densify_step at h1 h2
  by_cases hz : model = "zero"
  · rw [if_pos hz] at h1 h2
    exact add_edge_rewrite_same L hip hct hco G H hnodes s d ml 0 G2 H2 h1 h2
  · rw [if_neg hz] at h1 h2
    by_cases hl : model = "linear-latency"
    · rw [if_pos hl] at h1 h2
      exact add_edge_rewrite_same L hip hct hco G H hnodes s d ml mp G2 H2 h1 h2
    · rw [if_neg hl] at h1
      exact absurd h1 (by simp)

theorem C7_edges_write_once_witness :
    Gw_ab.nodes = Gw.nodes ∧
    densify_step Lw "zero" 300 0 Gw "a" "b" = .ok Gw_ab ∧
    densify_step Lw "zero" 300 0 Gw_ab "b" "a" = .ok Gw_ab ∧
    (∃ e, dget Gw_ab.edges (ekey "a" "b") = some e ∧
      dget Gw_ab.edges (ekey "a" "b") = some e ∧
      Gw_ab.nodes = Gw.nodes ∧ Gw_ab.nodes = Gw.nodes) := by
  have s1 : densify_step Lw "zero" 300 0 Gw "a" "b" = .ok Gw_ab := by
    unfold densify_step
    rw [if_pos rfl]
    have h := add_edge_concrete Gw Lw "a" "b" 300 0 na_w nb_w .ip2ip [10] 10 0
      (by decide) (by decide) (by decide) (by decide) (by norm_num [mean])
      (by norm_num) (by norm_num [mean]) (by norm_num)
    rw [h]
    rfl
  have s2 : densify_step Lw "zero" 300 0 Gw_ab "b" "a" = .ok Gw_ab := by
    unfold densify_step
    rw [if_pos rfl]
    have h := add_edge_concrete Gw_ab Lw "b" "a" 300 0 nb_w na_w .ip2ip [10] 10 0
      (by decide) (by decide) (by decide) (by decide) (by norm_num [mean])
      (by norm_num) (by norm_num [mean]) (by norm_num)
    rw [h]
    rfl
  refine ⟨rfl, s1, s2, ?_⟩
  exact C7_edges_write_once Lw "zero" 300 0
    (noSplit_record [] (.s "a") (.s "b") 10 noSplit_nil) noSplit_nil noSplit_nil
    Gw Gw_ab rfl "a" "b" Gw_ab Gw_ab s1 s2

end Atlas

namespace Atlas

/-- C8: node bandwidth resolution follows the order city, then country, then
global average, first match wins — the city bandwidth is used exactly when a
city code is present and found in the speed profile's city mapping, otherwise
the country mapping is consulted, otherwise the precomputed global averages —
and the chosen Mbit/s values are converted to KiB/s by multiplying by 122.07
and truncating to integer (truncation coincides with the floor for the
nonnegative bandwidths). -/
theorem C8_node_bandwidth_resolution (G : Graph) (speed : Speed) (ip : String)
    (city : Option Int) (country : String) (cname : String) (na : NodeAttrs)
    (hna : dget (add_node G speed ip city country cname).nodes ip = some na) :
    (∀ c b, city = some c → dget speed.cities c = some b →
      na.bandwidthup = mbit_to_kib b.up_mbits ∧
        na.bandwidthdown = mbit_to_kib b.down_mbits) ∧
    (city.bind (fun c => dget speed.cities c) = none →
      ∀ b, dget speed.countries country = some b →
      na.bandwidthup = mbit_to_kib b.up_mbits ∧
        na.bandwidthdown = mbit_to_kib b.down_mbits) ∧
    (city.bind (fun c => dget speed.cities c) = none →
      dget speed.countries country = none →
      na.bandwidthup = mbit_to_kib speed.global_up_mbit ∧
        na.bandwidthdown = mbit_to_kib speed.global_down_mbit) ∧
    (∀ q : ℚ, 0 ≤ q → mbit_to_kib q = ⌊q * (12207 / 100)⌋) := by
  have hbw : na.bandwidthup = (add_node_bw speed city country).1 ∧
      na.bandwidthdown = (add_node_bw speed city country).2 := by
    unfold add_node at hna
    cases city with
    | some c =>
      dsimp only at hna
      rw [dget_dset_self] at hna
      cases hna
      exact ⟨rfl, rfl⟩
    | none =>
      dsimp only at hna
      rw [dget_dset_self] at hna
      cases hna
      exact ⟨rfl, rfl⟩
  refine ⟨?_, ?_, ?_, ?_⟩
  · intro c b hc hcb
    subst hc
    have h1 : add_node_bw speed (some c) country =
        (mbit_to_kib b.up_mbits, mbit_to_kib b.down_mbits) := by
      unfold add_node_bw
      simp only [Option.some_bind]
      rw [hcb]
    rw [hbw.1, hbw.2, h1]
    exact ⟨rfl, rfl⟩
  · intro hnone b hcb
    have h1 : add_node_bw speed city country =
        (mbit_to_kib b.up_mbits, mbit_to_kib b.down_mbits) := by
      unfold add_node_bw
      rw [hnone, hcb]
    rw [hbw.1, hbw.2, h1]
    exact ⟨rfl, rfl⟩
  · intro hnone hcountry
    have h1 : add_node_bw speed city country =
        (mbit_to_kib speed.global_up_mbit, mbit_to_kib speed.global_down_mbit) := by
      unfold add_node_bw
      rw [hnone, hcountry]
    rw [hbw.1, hbw.2, h1]
    exact ⟨rfl, rfl⟩
  · intro q hq
    unfold mbit_to_kib pyint
    rw [if_neg (not_lt.mpr (mul_nonneg hq (by norm_num)))]

theorem C8_node_bandwidth_resolution_witness :
    dget (add_node ⟨[], []⟩ spc "a" (some 1) "X" "cn").nodes "a" = some na_c ∧
    (na_c.bandwidthup = mbit_to_kib (5 : ℚ) ∧
      na_c.bandwidthdown = mbit_to_kib (7 : ℚ)) ∧
    mbit_to_kib (5 : ℚ) = ⌊(5 : ℚ) * (12207 / 100)⌋ ∧
    (mbit_to_kib (5 : ℚ) = 610 ∧ mbit_to_kib (7 : ℚ) = 854) := by
  have h5 : mbit_to_kib (5 : ℚ) = 610 := by
    unfold mbit_to_kib pyint
    norm_num
  have h7 : mbit_to_kib (7 : ℚ) = 854 := by
    unfold mbit_to_kib pyint
    norm_num
  have hna : dget (add_node ⟨[], []⟩ spc "a" (some 1) "X" "cn").nodes "a" =
      some ⟨mbit_to_kib (7 : ℚ), mbit_to_kib (5 : ℚ), "a", some "1", "X", some "cn"⟩ :=
    rfl
  have hc := (C8_node_bandwidth_resolution ⟨[], []⟩ spc "a" (some 1) "X" "cn"
    ⟨mbit_to_kib (7 : ℚ), mbit_to_kib (5 : ℚ), "a", some "1", "X", some "cn"⟩ hna).1
    1 ⟨5, 7⟩ rfl (by decide)
  have hd := (C8_node_bandwidth_resolution ⟨[], []⟩ spc "a" (some 1) "X" "cn"
    ⟨mbit_to_kib (7 : ℚ), mbit_to_kib (5 : ℚ), "a", some "1", "X", some "cn"⟩ hna).2.2.2
    5 (by norm_num)
  have hnc : na_c = ⟨mbit_to_kib (7 : ℚ), mbit_to_kib (5 : ℚ), "a", some "1", "X", some "cn"⟩ := by
    unfold na_c
    rw [h5, h7]
  rw [hnc]
  exact ⟨hna, hc, hd, h5, h7⟩

end Atlas

namespace Atlas

/-- C1 (code bug): after ingesting three probes — (a, b) in cities 1 and 2,
(c, d) in cities 3 and 4, (e, f) in cities 1 and 2, all between countries X
and Y — the pair (a, f) has no IP-pair sample in either ordering, both nodes
carry city codes (1 and 2), and the Latency Sample Table holds the city-pair
samples [10, 50] for those two city codes, whose mean is 30.  The claim says
the Edge Synthesizer resolves the edge latency as that city mean, but the
code resolves the pair at the country granularity with samples [10, 100, 50]
and mean 160/3 ≠ 30: `add_node` stores the city code as a string (`str(city)`)
while `track_latency` keys the city table by the integer city codes, so the
membership test in the city branch of the fallback cascade can never succeed
and the city granularity is dead code. -/
theorem C1_city_fallback_dead :
    tget2 bugL.ip2ip (.s "a") (.s "f") = none ∧
    tget2 bugL.ip2ip (.s "f") (.s "a") = none ∧
    ((dget bugG.nodes "a").map NodeAttrs.citycode = some (some "1") ∧
      (dget bugG.nodes "f").map NodeAttrs.citycode = some (some "2")) ∧
    tget2 bugL.city2city (.i 1) (.i 2) = some [10, 50] ∧
    mean [10, 50] = 30 ∧
    ((dget bugG.nodes "a").bind fun na => (dget bugG.nodes "f").bind fun nf =>
      (resolve_latency bugL "a" "f" na nf).map Prod.fst) = some .country2country ∧
    ((dget bugG.nodes "a").bind fun na => (dget bugG.nodes "f").bind fun nf =>
      (resolve_latency bugL "a" "f" na nf).map Prod.snd) = some [10, 100, 50] ∧
    mean [10, 100, 50] = 160 / 3 ∧
    add_edge bugG bugL "a" "f" 300 0 =
      .ok { bugG with edges := (dset bugG.edges (ekey "a" "f") ⟨160 / 3, 0⟩) } ∧
    (160 / 3 : ℚ) ≠ 30 := by
  refine ⟨by decide, by decide, ⟨by decide, by decide⟩, by decide, by norm_num [mean],
    by decide, by decide, by norm_num [mean], ?_, by norm_num⟩
  exact add_edge_concrete bugG bugL "a" "f" 300 0
    ⟨mbit_to_kib 5, mbit_to_kib 5, "a", some "1", "X", some "c1"⟩
    ⟨mbit_to_kib 5, mbit_to_kib 5, "f", some "2", "Y", some "c2"⟩
    .country2country [10, 100, 50] (160 / 3) 0
    rfl rfl (by decide) (by decide) (by norm_num [mean]) (by norm_num)
    (by norm_num [mean]) (by norm_num)

end Atlas

namespace Atlas

theorem C3_record_append_never_split_witness :
    noSplit ([(Key.s "B", Key.s "C", (1 : ℚ)), (Key.s "A", Key.s "B", 2)].foldl
      (fun acc o => record acc o.1 o.2.1 o.2.2) []) ∧
    lookup (record [] (.s "p") (.s "q") 5) (.s "p") (.s "q") = some [5] := by
  have h := C3_record_append_never_split
    [(Key.s "B", Key.s "C", (1 : ℚ)), (Key.s "A", Key.s "B", 2)] [] (.s "p") (.s "q") 5
  refine ⟨h.1, ?_⟩
  rw [h.2]
  rfl

end Atlas
